import Mathlib

/-!
Shallow embedding of the recording → transcription → history pipeline of
`src/src/App.js` (Malayalam Speech Recognition, a React single-page app).

Conventions of the embedding:
* Audio samples are modelled as rationals (`ℚ`).  JavaScript number division
  by zero yields a non-finite value (`NaN` for `0/0`, `±Infinity` otherwise);
  we model a JS division whose result may be non-finite as an `Option ℚ`,
  with `none` standing for any non-finite result.
* React `useState` state is gathered into an explicit `AppState` record and
  every event handler of the source becomes a state-transition function.
  Interactions with the outside world (the audio decoder, the model pipeline,
  the millisecond clock `Date.now()`, `URL.createObjectURL`) are passed in as
  explicit arguments describing their outcome.
* `revokedUrls` logs calls to `URL.revokeObjectURL`; no function in
  `App.js` ever calls it, so no transition appends to this log.
-/

namespace MalayalamASR

/-- JavaScript floating-point division, abstracted: `none` stands for a
non-finite result (NaN or ±Infinity), produced exactly when the divisor is
zero. For a non-zero divisor the result is the exact quotient. -/
def jsDiv (x y : ℚ) : Option ℚ :=
  if y = 0 then none else some (x / y)

/-- Peak absolute sample value, from `App.js` line 181:
`Math.max(...audioData.map(Math.abs))`.  Since every `|x|` is nonnegative,
folding `max` with initial value 0 agrees with `Math.max` on every nonempty
list (and on the empty list the normalization below maps nothing anyway). -/
def peakAbs (audioData : List ℚ) : ℚ :=
  (audioData.map (fun x => |x|)).foldl max 0

/-- Normalization, from `App.js` line 182:
`audioData.map(x => x / maxValue)` — the division is UNCONDITIONAL; there is
no guard for a zero peak. -/
def normalizeAudio (audioData : List ℚ) : List (Option ℚ) :=
  audioData.map (fun x => jsDiv x (peakAbs audioData))

/-- The fixed "unrecognized" sentinel string of `App.js` line 194. -/
def sentinel : String := "വാക്ക് തിരിച്ചറിഞ്ഞില്ല"

/-- JavaScript `result?.text || sentinel` (`App.js` line 194): `none` models a
missing `text` property (or a null result), `some ""` the empty string; both
are falsy in JS, so both yield the sentinel. Any other string is truthy. -/
def orSentinel : Option String → String
  | none => sentinel
  | some s => if s = "" then sentinel else s

/-- The transcription result object built by `processAudio`
(`App.js` lines 193–196). -/
structure TranscriptionResult where
  malayalam : String
  sourceLanguage : String
  deriving DecidableEq, Repr

/-- The argument object of the external transcriber call
(`App.js` lines 185–189). -/
structure TranscribeCall where
  samples : List (Option ℚ)
  sampling_rate : Nat
  language : String
  task : String
  deriving DecidableEq, Repr

/-- The call `processAudio` makes to the cached transcriber pipeline
(`App.js` lines 185–189): normalized samples, the given sampling rate, and
the HARD-CODED language tag `'ml'` with task `'transcribe'`. -/
def processAudioCall (audioData : List ℚ) (sampleRate : Nat) : TranscribeCall :=
  { samples := normalizeAudio audioData
    sampling_rate := sampleRate
    language := "ml"
    task := "transcribe" }

/-- The value stored in an entry's `editedTranscription` field.  It is
initialized to the whole result object (`App.js` line 274) and later
overwritten with a plain string by `saveEditedTranscription`
(`App.js` line 379); JavaScript is untyped, so we model the union. -/
inductive EditedVal where
  | res (r : TranscriptionResult)
  | txt (s : String)
  deriving DecidableEq, Repr

/-- A history entry, from the `newAudioEntry` object literal of
`App.js` lines 269–276.  `blob` is the opaque audio blob, `audioUrl` the
object URL created for playback. -/
structure AudioEntry where
  id : Nat
  blob : String
  audioUrl : String
  transcription : TranscriptionResult
  editedTranscription : EditedVal
  timestamp : String
  deriving DecidableEq, Repr

/-- The `newAudioEntry` object literal (`App.js` lines 269–276): `id` is
`Date.now()` (passed in as `now`), and `editedTranscription` starts out as
the same result object as `transcription`. -/
def newAudioEntry (now : Nat) (blob url : String) (result : TranscriptionResult)
    (ts : String) : AudioEntry :=
  { id := now
    blob := blob
    audioUrl := url
    transcription := result
    editedTranscription := .res result
    timestamp := ts }

/-- The React component state of `App` (`App.js` lines 129–144), restricted
to the fields the modelled transitions read or write.  `transcriberLoaded`
models whether `transcriberRef.current` holds a pipeline handle;
`revokedUrls` logs `URL.revokeObjectURL` calls (never made in the source). -/
structure AppState where
  isProcessing : Bool
  error : Option String
  transcription : TranscriptionResult
  editedTranscription : TranscriptionResult
  audioHistory : List AudioEntry
  isModelLoading : Bool
  loadingProgress : Nat
  retryCount : Nat
  selectedLanguage : String
  transcriberLoaded : Bool
  revokedUrls : List String
  deriving DecidableEq, Repr

/-- Initial component state, from the `useState` initializers of
`App.js` lines 129–144. -/
def initialState : AppState :=
  { isProcessing := false
    error := none
    transcription := { malayalam := "", sourceLanguage := "ml" }
    editedTranscription := { malayalam := "", sourceLanguage := "ml" }
    audioHistory := []
    isModelLoading := true
    loadingProgress := 0
    retryCount := 0
    selectedLanguage := "ml"
    transcriberLoaded := false
    revokedUrls := [] }

/-- Outcome of the external interactions of one submission driven through
`transcribeAudio`: the audio decode, the lazy model initialization inside
`processAudio`, and the transcriber call itself may each fail, or the model
returns a (possibly missing or empty) text. -/
inductive SubmissionOutcome where
  | decodeError (msg : String)
  | modelLoadError (msg : String)
  | inferenceError (msg : String)
  | modelSuccess (text : Option String)
  deriving DecidableEq, Repr

/-- The `transcribeAudio` function (`App.js` lines 251–290) as a state
transition.  It sets `isProcessing` and clears the error, then on the
success path stores the result, prepends a new history entry and truncates
the history to 10 entries (`newHistory.slice(0, 10)`), while on every error
path the catch clause sets the single error slot and the history is left
untouched; the `finally` clause clears `isProcessing` in all cases.  Note
that the function performs NO check of `isProcessing` on entry.  `now`, `url`
and `ts` are the values of `Date.now()`, `URL.createObjectURL(audioBlob)` and
`new Date().toISOString()`. -/
def transcribeAudio (s : AppState) (o : SubmissionOutcome) (now : Nat)
    (blob url ts : String) : AppState :=
  let s₁ := { s with isProcessing := true, error := none }
  match o with
  | .decodeError msg =>
      { s₁ with error := some ("Failed to process audio: " ++ msg),
                isProcessing := false }
  | .modelLoadError msg =>
      { s₁ with error := some ("Failed to process audio: " ++ msg),
                isProcessing := false }
  | .inferenceError msg =>
      { s₁ with error := some ("Failed to process audio: " ++ msg),
                isProcessing := false }
  | .modelSuccess text =>
      let result : TranscriptionResult :=
        { malayalam := orSentinel text, sourceLanguage := "ml" }
      let entry := newAudioEntry now blob url result ts
      { s₁ with transcription := result
                editedTranscription := result
                audioHistory := (entry :: s₁.audioHistory).take 10
                transcriberLoaded := true
                isProcessing := false }

/-- The `loadModel` effect body (`App.js` lines 297–334) as a state
transition that also reports the scheduled auto-retry delay.  `outcome` is
`none` on a successful model initialization and `some msg` on failure.  On
failure, a retry is scheduled after `Math.min(1000 * 2^retryCount, 10000)`
milliseconds only while `retryCount < 3`. -/
def loadModel (s : AppState) (outcome : Option String) : AppState × Option Nat :=
  let s₀ := { s with isModelLoading := true, error := none }
  match outcome with
  | none =>
      ({ s₀ with isModelLoading := false, retryCount := 0, error := none,
                 transcriberLoaded := true }, none)
  | some msg =>
      let s₁ := { s₀ with error := some msg, isModelLoading := false }
      if s.retryCount < 3 then
        (s₁, some (min (1000 * 2 ^ s.retryCount) 10000))
      else
        (s₁, none)

/-- The `handleRetry` function (`App.js` lines 349–353): it INCREMENTS the
retry counter (`setRetryCount(prev => prev + 1)`), clears the error and
resets the progress display.  It does not reset the counter to 0. -/
def handleRetry (s : AppState) : AppState :=
  { s with retryCount := s.retryCount + 1, error := none, loadingProgress := 0 }

/-- The `saveEditedTranscription` function (`App.js` lines 375–383): maps
over the history, replacing `editedTranscription` with the new text on every
entry whose id matches, leaving the other entries untouched. -/
def saveEditedTranscription (id : Nat) (newText : String)
    (history : List AudioEntry) : List AudioEntry :=
  history.map (fun item =>
    if item.id = id then { item with editedTranscription := .txt newText }
    else item)

/-- The `deleteAudio` function (`App.js` lines 408–410): filters the history,
keeping every entry whose id differs from the given id.  It performs no
other effect — in particular it never calls `URL.revokeObjectURL`, so the
`revokedUrls` log is unchanged. -/
def deleteAudio (id : Nat) (s : AppState) : AppState :=
  { s with audioHistory := s.audioHistory.filter (fun item => item.id ≠ id) }

/-- The `handleLanguageChange` handler (`App.js` lines 447–458): stores the
newly selected language and discards the cached transcriber handle
(`transcriberRef.current = null`).  The subsequent re-initialization loads
the same fixed model configuration; the selected language is not passed to
it. -/
def handleLanguageChange (newLang : String) (s : AppState) : AppState :=
  { s with selectedLanguage := newLang, transcriberLoaded := false }

/-- The `disabled` condition of the record/stop button
(`App.js` line 612): `isProcessing || isModelLoading`. -/
def recordButtonDisabled (s : AppState) : Bool :=
  s.isProcessing || s.isModelLoading

/-- The `disabled` condition of the file-upload input
(`App.js` line 640): `isProcessing || isModelLoading`. -/
def uploadInputDisabled (s : AppState) : Bool :=
  s.isProcessing || s.isModelLoading

/-- A state with a submission in flight, used for concrete evaluations. -/
def busyState : AppState :=
  { initialState with isProcessing := true }

/-- A concrete transcription result for concrete evaluations. -/
def sampleResult : TranscriptionResult :=
  { malayalam := "text", sourceLanguage := "ml" }

/-- A concrete history entry for concrete evaluations. -/
def sampleEntry : AudioEntry :=
  newAudioEntry 5 "blob" "blob:sample" sampleResult "ts"

/-- A state whose history holds exactly `sampleEntry`. -/
def sampleState : AppState :=
  { initialState with audioHistory := [sampleEntry] }

/-! ## Helper lemmas -/

theorem take_ten_cons (e : AudioEntry) (h : List AudioEntry) :
    (e :: h).take 10 = e :: h.take 9 := rfl

theorem transcribeAudio_success_history (s : AppState) (t : Option String)
    (now : Nat) (blob url ts : String) :
    (transcribeAudio s (.modelSuccess t) now blob url ts).audioHistory
      = newAudioEntry now blob url
          { malayalam := orSentinel t, sourceLanguage := "ml" } ts
        :: s.audioHistory.take 9 := rfl

theorem transcribeAudio_success_transcription (s : AppState) (t : Option String)
    (now : Nat) (blob url ts : String) :
    (transcribeAudio s (.modelSuccess t) now blob url ts).transcription
      = { malayalam := orSentinel t, sourceLanguage := "ml" } := rfl

/-! ## Claims -/

/-- C1: the claim states that a zero peak (all-zero buffer) skips
normalization so that no division by zero occurs and the buffer passes
through unchanged.  The code of `App.js` lines 181–182 divides
unconditionally, so on the all-zero buffer every sample is divided by the
zero peak and becomes non-finite (`0/0` is NaN) instead of passing through. -/
theorem c1_silence_not_skipped :
    peakAbs [0, 0] = 0 ∧
    normalizeAudio [0, 0] = [none, none] ∧
    peakAbs [1, 0] = 1 ∧
    normalizeAudio [1, 0] = [some 1, some 0] := by
  have h01 : max (0 : ℚ) 1 = 1 := max_eq_right (by norm_num)
  have h10 : max (1 : ℚ) 0 = 1 := max_eq_left (by norm_num)
  have hpeak : peakAbs [1, 0] = (1 : ℚ) := by
    simp [peakAbs, List.foldl, h01, h10]
  refine ⟨by decide, by decide, hpeak, ?_⟩
  simp [normalizeAudio, jsDiv, hpeak]

/-- C2: the success path of `transcribeAudio` prepends exactly one new entry
at the front of the history, the resulting length never exceeds 10, below
the cap the previous entries are kept verbatim (order preserved), and at
exactly 10 previous entries the oldest (back) entry is evicted while the
order of the rest is preserved. -/
theorem c2_history_bounded_and_ordered (s : AppState) (t : Option String)
    (now : Nat) (blob url ts : String) :
    (transcribeAudio s (.modelSuccess t) now blob url ts).audioHistory.length ≤ 10 ∧
    (transcribeAudio s (.modelSuccess t) now blob url ts).audioHistory.head?
      = some (newAudioEntry now blob url
          { malayalam := orSentinel t, sourceLanguage := "ml" } ts) ∧
    (transcribeAudio s (.modelSuccess t) now blob url ts).audioHistory.length
      = min (s.audioHistory.length + 1) 10 ∧
    (s.audioHistory.length < 10 →
      (transcribeAudio s (.modelSuccess t) now blob url ts).audioHistory
        = newAudioEntry now blob url
            { malayalam := orSentinel t, sourceLanguage := "ml" } ts
          :: s.audioHistory) ∧
    (s.audioHistory.length = 10 →
      (transcribeAudio s (.modelSuccess t) now blob url ts).audioHistory
        = newAudioEntry now blob url
            { malayalam := orSentinel t, sourceLanguage := "ml" } ts
          :: s.audioHistory.dropLast) := by
  rw [transcribeAudio_success_history]
  refine ⟨?_, rfl, ?_, ?_, ?_⟩
  · simp only [List.length_cons, List.length_take]
    omega
  · simp only [List.length_cons, List.length_take]
    omega
  · intro hlt
    rw [List.take_of_length_le (by omega)]
  · intro heq
    rw [List.dropLast_eq_take, heq]

/-- Closed instance of `c2_history_bounded_and_ordered` at a concrete
submission. -/
theorem c2_history_bounded_and_ordered_witness :
    (transcribeAudio initialState (.modelSuccess (some "hello")) 1 "b" "u" "t").audioHistory.length ≤ 10 :=
  (c2_history_bounded_and_ordered initialState (some "hello") 1 "b" "u" "t").1

/-- C5: when the model call succeeds but returns a missing or empty text,
the stored transcript text is the fixed non-empty sentinel string, and a new
history entry is appended exactly as for any other successful transcription
(head entry carries the sentinel, length grows by one up to the cap). -/
theorem c5_sentinel_and_append (s : AppState) (now : Nat) (blob url ts : String) :
    sentinel ≠ "" ∧
    orSentinel (some "") = sentinel ∧
    orSentinel none = sentinel ∧
    (transcribeAudio s (.modelSuccess (some "")) now blob url ts).transcription.malayalam
      = sentinel ∧
    (transcribeAudio s (.modelSuccess (some "")) now blob url ts).audioHistory.head?
      = some (newAudioEntry now blob url
          { malayalam := sentinel, sourceLanguage := "ml" } ts) ∧
    (transcribeAudio s (.modelSuccess (some "")) now blob url ts).audioHistory.length
      = min (s.audioHistory.length + 1) 10 ∧
    (transcribeAudio s (.modelSuccess none) now blob url ts).transcription.malayalam
      = sentinel ∧
    (transcribeAudio s (.modelSuccess none) now blob url ts).audioHistory.length
      = min (s.audioHistory.length + 1) 10 := by
  have hor : orSentinel (some "") = sentinel := by decide
  refine ⟨by decide, hor, rfl, ?_, ?_, ?_, ?_, ?_⟩
  · rw [transcribeAudio_success_transcription]
    simpa using hor
  · rw [transcribeAudio_success_history, hor]
    rfl
  · rw [transcribeAudio_success_history]
    simp only [List.length_cons, List.length_take]
    omega
  · rw [transcribeAudio_success_transcription]
    rfl
  · rw [transcribeAudio_success_history]
    simp only [List.length_cons, List.length_take]
    omega

/-- Closed instance of `c5_sentinel_and_append` at a concrete submission. -/
theorem c5_sentinel_and_append_witness :
    (transcribeAudio initialState (.modelSuccess (some "")) 1 "b" "u" "t").transcription.malayalam
      = sentinel :=
  (c5_sentinel_and_append initialState 1 "b" "u" "t").2.2.2.1

/-- C7: on every failing stage of a submission (decode, model load,
inference) `transcribeAudio` clears the processing flag, sets the single
error slot (overwriting whatever error was there before, since the result
does not depend on the prior error), and leaves the history exactly as it
was. -/
theorem c7_error_atomicity (s : AppState) (msg prior : String) (now : Nat)
    (blob url ts : String) :
    ((transcribeAudio s (.decodeError msg) now blob url ts).isProcessing = false ∧
     (transcribeAudio s (.decodeError msg) now blob url ts).error
       = some ("Failed to process audio: " ++ msg) ∧
     (transcribeAudio s (.decodeError msg) now blob url ts).audioHistory
       = s.audioHistory) ∧
    ((transcribeAudio s (.modelLoadError msg) now blob url ts).isProcessing = false ∧
     (transcribeAudio s (.modelLoadError msg) now blob url ts).error
       = some ("Failed to process audio: " ++ msg) ∧
     (transcribeAudio s (.modelLoadError msg) now blob url ts).audioHistory
       = s.audioHistory) ∧
    ((transcribeAudio s (.inferenceError msg) now blob url ts).isProcessing = false ∧
     (transcribeAudio s (.inferenceError msg) now blob url ts).error
       = some ("Failed to process audio: " ++ msg) ∧
     (transcribeAudio s (.inferenceError msg) now blob url ts).audioHistory
       = s.audioHistory) ∧
    transcribeAudio { s with error := some prior } (.decodeError msg) now blob url ts
      = transcribeAudio s (.decodeError msg) now blob url ts :=
  ⟨⟨rfl, rfl, rfl⟩, ⟨rfl, rfl, rfl⟩, ⟨rfl, rfl, rfl⟩, rfl⟩

/-- Closed instance of `c7_error_atomicity` at a concrete failing
submission. -/
theorem c7_error_atomicity_witness :
    (transcribeAudio initialState (.decodeError "boom") 1 "b" "u" "t").isProcessing
      = false :=
  (c7_error_atomicity initialState "boom" "old" 1 "b" "u" "t").1.1

/-- C3, counterexample: a submission driven through `transcribeAudio` while
the processing flag is already `true` is NOT rejected — it runs to
completion and changes both the history and the current transcript, so the
claimed Busy rejection does not exist in the code. -/
theorem c3_counterexample :
    busyState.isProcessing = true ∧
    (transcribeAudio busyState (.modelSuccess (some "hello")) 1 "b" "u" "t").audioHistory
      ≠ busyState.audioHistory ∧
    (transcribeAudio busyState (.modelSuccess (some "hello")) 1 "b" "u" "t").transcription
      ≠ busyState.transcription := by
  refine ⟨rfl, by decide, by decide⟩

/-- C3, amended: the code contains no Busy rejection; `transcribeAudio`
never inspects the processing flag (its result is identical whether the flag
was set or not).  Concurrent submissions are prevented only at the
presentation layer: whenever the processing flag is true, both the
record/stop button and the file-upload input are disabled. -/
theorem c3_ui_disables_submissions (s : AppState) (o : SubmissionOutcome)
    (now : Nat) (blob url ts : String) (h : s.isProcessing = true) :
    recordButtonDisabled s = true ∧
    uploadInputDisabled s = true ∧
    transcribeAudio { s with isProcessing := true } o now blob url ts
      = transcribeAudio { s with isProcessing := false } o now blob url ts := by
  refine ⟨?_, ?_, ?_⟩
  · simp [recordButtonDisabled, h]
  · simp [uploadInputDisabled, h]
  · cases o <;> rfl

/-- Closed instance of `c3_ui_disables_submissions` at a concrete busy
state. -/
theorem c3_ui_disables_submissions_witness :
    recordButtonDisabled busyState = true ∧
    uploadInputDisabled busyState = true ∧
    transcribeAudio { busyState with isProcessing := true }
        (.modelSuccess (some "hi")) 1 "b" "u" "t"
      = transcribeAudio { busyState with isProcessing := false }
          (.modelSuccess (some "hi")) 1 "b" "u" "t" :=
  c3_ui_disables_submissions busyState (.modelSuccess (some "hi")) 1 "b" "u" "t" rfl

/-- C4, counterexample: an explicit retry does not reset the attempt counter
to 0 — `handleRetry` increments it, so from counter 3 it yields 4. -/
theorem c4_counterexample :
    (handleRetry { initialState with retryCount := 3 }).retryCount = 4 ∧
    (handleRetry { initialState with retryCount := 3 }).retryCount ≠ 0 :=
  ⟨rfl, by decide⟩

/-- C4, amended: on repeated model-load failure starting from counter 0 the
scheduled delays are exactly `min(1000·2^c, 10000)` for counter values
c = 0, 1, 2, i.e. 1000 ms, 2000 ms, 4000 ms; after the third retry also
fails (counter 3) no further retry is scheduled and the load error message
is surfaced; `handleRetry` INCREMENTS the counter rather than resetting it,
and the counter is reset to 0 only by a successful load. -/
theorem c4_backoff_schedule (s s' : AppState) (m₁ m₂ m₃ m₄ : String)
    (h : s.retryCount = 0) :
    (loadModel s (some m₁)).2 = some 1000 ∧
    (loadModel (handleRetry (loadModel s (some m₁)).1) (some m₂)).2
      = some 2000 ∧
    (loadModel (handleRetry (loadModel (handleRetry (loadModel s (some m₁)).1)
        (some m₂)).1) (some m₃)).2 = some 4000 ∧
    (loadModel (handleRetry (loadModel (handleRetry (loadModel (handleRetry
        (loadModel s (some m₁)).1) (some m₂)).1) (some m₃)).1) (some m₄)).2
      = none ∧
    (loadModel (handleRetry (loadModel (handleRetry (loadModel (handleRetry
        (loadModel s (some m₁)).1) (some m₂)).1) (some m₃)).1) (some m₄)).1.error
      = some m₄ ∧
    (handleRetry s').retryCount = s'.retryCount + 1 ∧
    (loadModel s' none).1.retryCount = 0 := by
  simp only [loadModel, handleRetry, h]
  norm_num

/-- Closed instance of `c4_backoff_schedule` at the initial state. -/
theorem c4_backoff_schedule_witness :
    (loadModel initialState (some "load failed")).2 = some 1000 :=
  (c4_backoff_schedule initialState initialState "load failed" "load failed"
    "load failed" "load failed" rfl).1

/-- C6, counterexample: after the user selects English, the transcribe call
still carries the hard-coded language tag `'ml'`, not the selected
language. -/
theorem c6_counterexample :
    (handleLanguageChange "en" initialState).selectedLanguage = "en" ∧
    (processAudioCall [] 16000).language = "ml" ∧
    ("ml" : String) ≠ "en" :=
  ⟨rfl, rfl, by decide⟩

/-- C6, amended: the language tag passed to the external model call is the
constant `'ml'` (with task `'transcribe'`) for every transcription,
regardless of the selected language; changing the selected language only
stores the new code and discards the cached transcriber handle. -/
theorem c6_language_hardcoded (audioData : List ℚ) (sampleRate : Nat)
    (lang : String) (s : AppState) :
    (processAudioCall audioData sampleRate).language = "ml" ∧
    (processAudioCall audioData sampleRate).task = "transcribe" ∧
    (handleLanguageChange lang s).selectedLanguage = lang ∧
    (handleLanguageChange lang s).transcriberLoaded = false :=
  ⟨rfl, rfl, rfl, rfl⟩

/-- Closed instance of `c6_language_hardcoded` at a concrete call. -/
theorem c6_language_hardcoded_witness :
    (processAudioCall [] 16000).language = "ml" :=
  (c6_language_hardcoded [] 16000 "en" initialState).1

/-- C8: `saveEditedTranscription` preserves the length and order of the
history pointwise; on every entry whose id matches it sets only the
`editedTranscription` field (the original transcription, id, blob, url and
timestamp are unchanged), every entry whose id differs is completely
unchanged, and when no entry has the id the whole history is unchanged. -/
theorem c8_edit_only_target (id : Nat) (newText : String)
    (history : List AudioEntry) :
    List.Forall₂ (fun a b =>
        b.id = a.id ∧ b.transcription = a.transcription ∧ b.blob = a.blob ∧
        b.audioUrl = a.audioUrl ∧ b.timestamp = a.timestamp ∧
        (a.id = id → b.editedTranscription = .txt newText) ∧
        (a.id ≠ id → b = a))
      history (saveEditedTranscription id newText history) ∧
    (saveEditedTranscription id newText history).length = history.length ∧
    ((∀ e ∈ history, e.id ≠ id) →
      saveEditedTranscription id newText history = history) := by
  induction history with
  | nil => exact ⟨List.Forall₂.nil, rfl, fun _ => rfl⟩
  | cons a l ih =>
    have hcons : saveEditedTranscription id newText (a :: l)
        = (if a.id = id then { a with editedTranscription := .txt newText }
           else a) :: saveEditedTranscription id newText l := rfl
    rw [hcons]
    refine ⟨List.Forall₂.cons ?_ ih.1, ?_, ?_⟩
    · by_cases hid : a.id = id
      · rw [if_pos hid]
        exact ⟨rfl, rfl, rfl, rfl, rfl, fun _ => rfl, fun hn => absurd hid hn⟩
      · rw [if_neg hid]
        exact ⟨rfl, rfl, rfl, rfl, rfl, fun hp => absurd hp hid, fun _ => rfl⟩
    · simp [ih.2.1]
    · intro hall
      have ha : a.id ≠ id := hall a (List.mem_cons_self a l)
      rw [if_neg ha, ih.2.2 (fun e he => hall e (List.mem_cons_of_mem a he))]

/-- Closed instance of `c8_edit_only_target` at a concrete edit. -/
theorem c8_edit_only_target_witness :
    (saveEditedTranscription 5 "new text" [sampleEntry]).length
      = [sampleEntry].length :=
  (c8_edit_only_target 5 "new text" [sampleEntry]).2.1

/-- C9, counterexample: deleting the only history entry removes it but does
NOT release its playback resource — the code never calls
`URL.revokeObjectURL`, so the log of revoked object URLs stays empty. -/
theorem c9_counterexample :
    sampleState.audioHistory = [sampleEntry] ∧
    (deleteAudio 5 sampleState).audioHistory = [] ∧
    (deleteAudio 5 sampleState).revokedUrls = [] ∧
    sampleEntry.audioUrl ∉ (deleteAudio 5 sampleState).revokedUrls := by
  refine ⟨rfl, by decide, rfl, by decide⟩

/-- C9, amended: deleting by id removes every entry whose id matches (a
no-op when the id is absent), preserves the relative order of the remaining
entries, and keeps every non-matching entry; the playback object URL of a
removed entry is NOT released — the revocation log is unchanged by the
delete. -/
theorem c9_delete_no_release (id : Nat) (s : AppState) :
    (∀ e ∈ (deleteAudio id s).audioHistory, e.id ≠ id) ∧
    (deleteAudio id s).audioHistory.Sublist s.audioHistory ∧
    (∀ e ∈ s.audioHistory, e.id ≠ id → e ∈ (deleteAudio id s).audioHistory) ∧
    ((∀ e ∈ s.audioHistory, e.id ≠ id) → deleteAudio id s = s) ∧
    (deleteAudio id s).revokedUrls = s.revokedUrls := by
  refine ⟨?_, ?_, ?_, ?_, rfl⟩
  · intro e he
    have := (List.mem_filter.mp he).2
    simpa using this
  · exact List.filter_sublist _
  · intro e he hne
    exact List.mem_filter.mpr ⟨he, by simpa using hne⟩
  · intro hall
    obtain ⟨p, er, tr, ed, hist, ml, lp, rc, sl, tl, ru⟩ := s
    simp only [deleteAudio, AppState.mk.injEq, and_true, true_and]
    exact List.filter_eq_self.mpr (fun e he => by simpa using hall e he)

/-- Closed instance of `c9_delete_no_release` at a concrete delete. -/
theorem c9_delete_no_release_witness :
    (deleteAudio 5 sampleState).revokedUrls = sampleState.revokedUrls :=
  (c9_delete_no_release 5 sampleState).2.2.2.2

/-- C10: `deleteAudio` filters the whole history, so it removes every entry
whose id equals the given id, not at most one; entry ids are the
`Date.now()` millisecond value at creation, so two submissions completing in
the same millisecond produce two entries with the same id, and one delete of
that id removes both. -/
theorem c10_delete_removes_duplicates (s : AppState) (t₁ t₂ : Option String)
    (idv : Nat) (b₁ u₁ ts₁ b₂ u₂ ts₂ : String)
    (hemp : s.audioHistory = []) :
    (transcribeAudio (transcribeAudio s (.modelSuccess t₁) idv b₁ u₁ ts₁)
        (.modelSuccess t₂) idv b₂ u₂ ts₂).audioHistory.length = 2 ∧
    (∀ e ∈ (transcribeAudio (transcribeAudio s (.modelSuccess t₁) idv b₁ u₁ ts₁)
        (.modelSuccess t₂) idv b₂ u₂ ts₂).audioHistory, e.id = idv) ∧
    (deleteAudio idv (transcribeAudio (transcribeAudio s (.modelSuccess t₁)
        idv b₁ u₁ ts₁) (.modelSuccess t₂) idv b₂ u₂ ts₂)).audioHistory = [] := by
  have h1 : (transcribeAudio s (.modelSuccess t₁) idv b₁ u₁ ts₁).audioHistory
      = [newAudioEntry idv b₁ u₁
          { malayalam := orSentinel t₁, sourceLanguage := "ml" } ts₁] := by
    rw [transcribeAudio_success_history, hemp]
    rfl
  have h2 : (transcribeAudio (transcribeAudio s (.modelSuccess t₁) idv b₁ u₁ ts₁)
        (.modelSuccess t₂) idv b₂ u₂ ts₂).audioHistory
      = [newAudioEntry idv b₂ u₂
          { malayalam := orSentinel t₂, sourceLanguage := "ml" } ts₂,
         newAudioEntry idv b₁ u₁
          { malayalam := orSentinel t₁, sourceLanguage := "ml" } ts₁] := by
    rw [transcribeAudio_success_history, h1]
    rfl
  refine ⟨?_, ?_, ?_⟩
  · rw [h2]
    rfl
  · intro e he
    rw [h2] at he
    simp only [List.mem_cons, List.not_mem_nil, or_false] at he
    rcases he with he | he <;> simp [he, newAudioEntry]
  · show (transcribeAudio (transcribeAudio s (.modelSuccess t₁) idv b₁ u₁ ts₁)
        (.modelSuccess t₂) idv b₂ u₂ ts₂).audioHistory.filter
          (fun item => item.id ≠ idv) = []
    rw [h2]
    simp [newAudioEntry]

/-- Closed instance of `c10_delete_removes_duplicates`: two submissions in
the same millisecond, one delete, empty history. -/
theorem c10_delete_removes_duplicates_witness :
    (deleteAudio 7 (transcribeAudio (transcribeAudio initialState
        (.modelSuccess (some "a")) 7 "b1" "u1" "t1")
        (.modelSuccess (some "b")) 7 "b2" "u2" "t2")).audioHistory = [] :=
  (c10_delete_removes_duplicates initialState (some "a") (some "b") 7
    "b1" "u1" "t1" "b2" "u2" "t2" rfl).2.2

end MalayalamASR
